import Mathlib

/-
Verification of the tables-to-go generator (tablestogo.go).

The development shallowly embeds the schema-to-struct pipeline of the
program: the identifier formatting helpers from Go's strings package that
the program calls (strings.Title, strings.ToLower, strings.Split,
strings.Contains), the type mapper mapDbColumnTypeToGoType, the per-table
emitter createStructOfTable (as a pure function from configuration and
table to the generated source text and file name), and the column-loading
and error-propagation behaviour of the two Database implementations.

All identifiers that occur in this development are ASCII; the embeddings
of the Go unicode helpers model the ASCII fragment exactly and note where
the (unreachable here) non-ASCII behaviour is approximated.
-/

namespace TablesToGo

/-- ASCII fragment of Go's unicode.ToTitle, as used by strings.Title:
a lower-case ASCII letter is mapped to the corresponding upper-case
letter; every other ASCII character is unchanged. -/
def toTitleChar (c : Char) : Char :=
  if 'a' ≤ c ∧ c ≤ 'z' then Char.ofNat (c.toNat - 32) else c

/-- ASCII fragment of Go's unicode.ToLower, as used by strings.ToLower. -/
def toLowerChar (c : Char) : Char :=
  if 'A' ≤ c ∧ c ≤ 'Z' then Char.ofNat (c.toNat + 32) else c

/-- Go's strings.isSeparator: ASCII alphanumerics and the underscore are
not separators, every other ASCII character is.  Beyond ASCII, Go treats
letters and digits as non-separators and whitespace as the only
separator; that branch is approximated with Char.isWhitespace (no
non-ASCII character occurs in this development). -/
def isSeparator (c : Char) : Bool :=
  if c.toNat ≤ 0x7F then
    if '0' ≤ c ∧ c ≤ '9' then false
    else if 'a' ≤ c ∧ c ≤ 'z' then false
    else if 'A' ≤ c ∧ c ≤ 'Z' then false
    else if c = '_' then false
    else true
  else
    c.isWhitespace

/-- The rune-mapping loop of Go's strings.Title: a character following a
separator (the state starts at a space, a separator) is title-cased,
every other character is kept; the state is always the previous original
character. -/
def stringsTitleAux : Char → List Char → List Char
  | _, [] => []
  | prev, c :: cs =>
      (if isSeparator prev then toTitleChar c else c) :: stringsTitleAux c cs

/-- Go's strings.Title (deprecated in newer Go, still what the program
calls): title-case every character that begins a "word". -/
def stringsTitle (s : String) : String :=
  ⟨stringsTitleAux ' ' s.data⟩

/-- Go's strings.ToLower on a character list (ASCII fragment). -/
def toLowerL (l : List Char) : List Char := l.map toLowerChar

/-- Go's strings.ToLower. -/
def stringsToLower (s : String) : String := ⟨toLowerL s.data⟩

/-- Prefix test on character lists (helper for the substring test). -/
def hasPre : List Char → List Char → Bool
  | [], _ => true
  | _ :: _, [] => false
  | p :: ps, c :: cs => p == c && hasPre ps cs

/-- Substring search on character lists: does the first list occur
contiguously inside the second? -/
def hasSubAux : List Char → List Char → Bool
  | ps, [] => ps.isEmpty
  | ps, c :: cs => hasPre ps (c :: cs) || hasSubAux ps cs

/-- Go's strings.Contains(s, sub). -/
def stringsContains (s sub : String) : Bool := hasSubAux sub.data s.data

/-- Go's strings.Split(s, "_") on the character list of s: the list of
(possibly empty) segments between underscores.  Split of the empty
string is the one-element list holding the empty segment, as in Go. -/
def splitOnUnderscore : List Char → List (List Char)
  | [] => [[]]
  | c :: cs =>
    match splitOnUnderscore cs with
    | [] => [[]]
    | p :: ps => if c = '_' then [] :: p :: ps else (c :: p) :: ps

/-- camelCaseString from tablestogo.go, on character lists: split on
underscore; a single segment is passed to strings.Title; otherwise each
segment is lower-cased, title-cased and the results concatenated. -/
def camelCaseL (l : List Char) : List Char :=
  let splitted := splitOnUnderscore l
  if splitted.length = 1 then stringsTitleAux ' ' l
  else (splitted.map (fun part => stringsTitleAux ' ' (toLowerL part))).flatten

/-- camelCaseString from tablestogo.go. -/
def camelCaseString (s : String) : String := ⟨camelCaseL s.data⟩

/-- The per-column name formatting of createStructOfTable: strings.Title
first, then camelCaseString when the output format is "c". -/
def formatColumnName (outputFormat : String) (columnName : String) : String :=
  let colName := stringsTitle columnName
  if outputFormat = "c" then camelCaseString colName else colName

/-- The integer family of the type-mapper switch (first case list). -/
def intTypes : List String :=
  ["integer", "bigint", "bigserial", "smallint", "smallserial", "serial",
   "int", "tinyint", "mediumint"]

/-- The float/decimal family of the type-mapper switch. -/
def floatTypes : List String :=
  ["double precision", "numeric", "decimal", "real", "float", "double"]

/-- The text/binary family of the type-mapper switch. -/
def textTypes : List String :=
  ["character varying", "character", "text", "char", "varchar", "binary",
   "varbinary", "blob"]

/-- The temporal family of the type-mapper switch. -/
def timeTypes : List String :=
  ["time", "timestamp", "time with time zone", "timestamp with time zone",
   "time without time zone", "timestamp without time zone", "date",
   "datetime", "year"]

/-- The boolean family of the type-mapper switch. -/
def boolTypes : List String := ["boolean"]

/-- Every data type named by some case of the type-mapper switch. -/
def recognizedTypes : List String :=
  intTypes ++ floatTypes ++ textTypes ++ timeTypes ++ boolTypes

/-- mapDbColumnTypeToGoType from tablestogo.go: a Go switch on the data
type whose case lists are the family lists above; each recognized family
yields its plain Go type, or its nullable wrapper when isNullable is
exactly "YES"; the default case yields sql.NullString.  The second
component is the isTime result, true exactly for the temporal family. -/
def mapDbColumnTypeToGoType (dbDataType : String) (isNullable : String) :
    String × Bool :=
  if dbDataType ∈ intTypes then
    (if isNullable = "YES" then "sql.NullInt64" else "int", false)
  else if dbDataType ∈ floatTypes then
    (if isNullable = "YES" then "sql.NullFloat64" else "float64", false)
  else if dbDataType ∈ textTypes then
    (if isNullable = "YES" then "sql.NullString" else "string", false)
  else if dbDataType ∈ timeTypes then
    (if isNullable = "YES" then "pq.NullTime" else "time.Time", true)
  else if dbDataType ∈ boolTypes then
    (if isNullable = "YES" then "sql.NullBool" else "bool", false)
  else
    ("sql.NullString", false)

/-- Go's sql.NullString: a string together with a validity flag.  The
program reads the String field directly, regardless of Valid. -/
structure NullString where
  Str : String
  Valid : Bool
deriving DecidableEq

/-- The Column entity of tablestogo.go (fields in declaration order;
CharacterMaximumLength and NumericPrecision are carried but never read
by the emission pipeline and are modelled as optional integers). -/
structure Column where
  OrdinalPosition : Int
  ColumnName : String
  DataType : String
  ColumnDefault : NullString
  IsNullable : String
  CharacterMaximumLength : Option Int := none
  NumericPrecision : Option Int := none
  ColumnKey : String := ""
  Extra : String := ""
deriving DecidableEq

/-- The Table entity of tablestogo.go. -/
structure Table where
  TableName : String
  Columns : List Column
deriving DecidableEq

/-- The resolved command-line configuration consumed by the emitter.
The fields pre and suf model the -pre and -suf flags (the Go globals
holding the file/struct name prefix and suffix). -/
structure Config where
  outputFormat : String := "c"
  pre : String := ""
  suf : String := ""
  packageName : String := "dto"
  isMastermindStructable : Bool := false
  isMastermindStructableOnly : Bool := false
  isMastermindStructableRecorder : Bool := false
deriving DecidableEq

/-- Positional convenience constructor for Column (ordinal position,
name, data type, default, nullability, key flag, extra). -/
def mkCol (pos : Int) (name dataType : String) (defv : NullString)
    (nul key extra : String) : Column :=
  { OrdinalPosition := pos, ColumnName := name, DataType := dataType,
    ColumnDefault := defv, IsNullable := nul, ColumnKey := key,
    Extra := extra }

/-- A configuration with only the structable annotation mode enabled. -/
def cfgStOnly : Config := { outputFormat := "c", isMastermindStructable := true }

/-- The primary-key/autoincrement test of createStructOfTable: the
column default contains "nextval" (postgres) or the column key contains
"PRI" and the extra text contains "auto_increment" (mysql). -/
def isPkOf (column : Column) : Bool :=
  stringsContains column.ColumnDefault.Str "nextval"
  || (stringsContains column.ColumnKey "PRI"
      && stringsContains column.Extra "auto_increment")

/-- The isPk marker string appended inside the stbl tag. -/
def isPkMarker (column : Column) : String :=
  if isPkOf column then ",PRIMARY_KEY,SERIAL,AUTO_INCREMENT" else ""

/-- The mastermindStructableAnnotation value computed per column by
createStructOfTable (empty unless one of the structable modes is on). -/
def stblTagOf (cfg : Config) (column : Column) : String :=
  if cfg.isMastermindStructable || cfg.isMastermindStructableOnly then
    " stbl:\"" ++ column.ColumnName ++ isPkMarker column ++ "\""
  else ""

/-- One field line written into colBuffer for one column. -/
def columnRow (cfg : Config) (column : Column) : String :=
  let colName := formatColumnName cfg.outputFormat column.ColumnName
  let colType := (mapDbColumnTypeToGoType column.DataType column.IsNullable).1
  if cfg.isMastermindStructableOnly then
    "\t" ++ colName ++ " " ++ colType ++ " `" ++ stblTagOf cfg column ++ "`\n"
  else
    "\t" ++ colName ++ " " ++ colType ++ " `db:\"" ++ column.ColumnName
      ++ "\"" ++ stblTagOf cfg column ++ "`\n"

/-- The full colBuffer contents: one row per column in ordinal order,
then the structable.Recorder embedding when requested together with one
of the structable modes. -/
def colBufferOf (cfg : Config) (t : Table) : String :=
  String.join (t.Columns.map (columnRow cfg))
  ++ (if cfg.isMastermindStructableRecorder
        && (cfg.isMastermindStructable || cfg.isMastermindStructableOnly) then
        "\t\nstructable.Recorder\n"
      else "")

/-- The isNullable flag accumulated over the column loop: set exactly
when some column's IsNullable equals "YES". -/
def isNullableOf (t : Table) : Bool :=
  t.Columns.any (fun c => c.IsNullable == "YES")

/-- The timeIndicator counter accumulated over the column loop: the
number of columns whose mapped type is temporal. -/
def timeIndicatorOf (t : Table) : Nat :=
  (t.Columns.filter
    (fun c => (mapDbColumnTypeToGoType c.DataType c.IsNullable).2)).length

/-- The struct/type name: strings.Title of prefix ++ table name ++
suffix, passed through camelCaseString when the output format is "c". -/
def structNameOf (cfg : Config) (t : Table) : String :=
  let tableName := stringsTitle (cfg.pre ++ t.TableName ++ cfg.suf)
  if cfg.outputFormat = "c" then camelCaseString tableName else tableName

/-- The created file name: the struct name followed by ".go". -/
def fileNameOf (cfg : Config) (t : Table) : String :=
  structNameOf cfg t ++ ".go"

/-- The path handed to os.Create (line 424): the output file path
concatenated directly with the file name — the code inserts no path
separator.  verifyOutputPath (line 298) has normalized outputFilePath
with filepath.Abs(outputFilePath ++ "/"), whose Clean step strips the
trailing separator, so this path names a sibling of the output
directory whose name starts with the directory's name. -/
def createdPathOf (outputFilePath : String) (cfg : Config) (t : Table) :
    String :=
  outputFilePath ++ fileNameOf cfg t

/-- The import block of createStructOfTable, as a function of the two
accumulated facts (some column nullable / some column temporal) and the
three structable flags.  The block is opened whenever a structable mode
is on, even if nothing is written into it. -/
def importBlockB (st sto str nullable temporal : Bool) : String :=
  if nullable || temporal || st || sto then
    "import (\n"
    ++ (if nullable then "\t\"database/sql\"\n" else "")
    ++ (if temporal then
          if nullable then "\t\n\"github.com/lib/pq\"\n"
          else "\t\"time\"\n"
        else "")
    ++ (if str && (st || sto) then
          "\t\n\"github.com/Masterminds/structable\"\n"
        else "")
    ++ ")\n\n"
  else ""

/-- The import block emitted for a table. -/
def importBlockOf (cfg : Config) (t : Table) : String :=
  importBlockB cfg.isMastermindStructable cfg.isMastermindStructableOnly
    cfg.isMastermindStructableRecorder
    (isNullableOf t) (decide (0 < timeIndicatorOf t))

/-- The complete text assembled in buffer by createStructOfTable before
it is handed to format.Source: package clause, import block, struct
declaration with all field rows. -/
def bufferOf (cfg : Config) (t : Table) : String :=
  "package " ++ cfg.packageName ++ "\n\n"
  ++ importBlockOf cfg t
  ++ "type " ++ structNameOf cfg t ++ " struct \x7b\n"
  ++ colBufferOf cfg t
  ++ "\x7d"

/-- The bytes actually written to the created file.  createStructOfTable
runs formatedFile, _ := format.Source(buffer.Bytes()) and then writes
formatedFile unconditionally: the formatting error is discarded, and on
failure format.Source returns a nil slice, so zero bytes are written.
The source formatter is abstracted as a fallible function. -/
def writtenFileContents (gofmt : String → Option String) (cfg : Config)
    (t : Table) : String :=
  match gofmt (bufferOf cfg t) with
  | some formatted => formatted
  | none => ""

/-- PostgreDatabase.GetColumnsOfTable: the Select call's result is
modelled as an Except value; on success it fills table.Columns, on
failure it leaves the table unchanged.  The Go method discards the
returned error (the statement `pg.GetColumnsOfTableStmt.Select(...)` is
not assigned to err), so the returned error component is always none. -/
def pgGetColumnsOfTable (selectResult : Except String (List Column))
    (t : Table) : Table × Option String :=
  let t := match selectResult with
    | .ok cols => { t with Columns := cols }
    | .error _ => t
  (t, none)

/-- MySQLDatabase.GetColumnsOfTable: identical error behaviour — the
Select error is discarded and the returned error is always none. -/
def mysqlGetColumnsOfTable (selectResult : Except String (List Column))
    (t : Table) : Table × Option String :=
  let t := match selectResult with
    | .ok cols => { t with Columns := cols }
    | .error _ => t
  (t, none)

/-- One iteration of the table loop in run (tablestogo.go lines 345-365),
restricted to the column-loading step: run aborts with the error when
GetColumnsOfTable returns one, and continues with the table otherwise. -/
def runStep (selectResult : Except String (List Column)) (t : Table) :
    Except String Table :=
  match pgGetColumnsOfTable selectResult t with
  | (t2, none) => .ok t2
  | (_, some e) => .error e

/-- The connection-failure message built by connect: the password enters
only through the usingPswd yes/no indicator.  Go's %q verb is modelled
as quoting with escaped quote and backslash characters (its escaping of
control characters is not needed here). -/
def goQuote (s : String) : String :=
  "\"" ++ String.join (s.data.map (fun c =>
    if c = '"' then "\\\"" else if c = '\\' then "\\\\"
    else String.singleton c)) ++ "\""

/-- The error message returned by connect on a failed connection.  The
Go code initializes usingPswd to "no" and overwrites it with "yes" when
pswd is non-empty; the grouping of the concatenation is immaterial. -/
def connectionErrorMessage (dbType user dbName host port pswd : String) :
    String :=
  ("Connection to Database (type=" ++ goQuote dbType
    ++ ", user=" ++ goQuote user
    ++ ", database=" ++ goQuote dbName
    ++ ", host='" ++ host ++ ":" ++ port)
  ++ ("' (using password: " ++ (if pswd = "" then "no" else "yes")
      ++ ") failed!")

/-- The nullable wrapper types that the type mapper can produce. -/
def nullableWrapperTypes : List String :=
  ["sql.NullInt64", "sql.NullFloat64", "sql.NullString", "pq.NullTime",
   "sql.NullBool"]

lemma map_int_family (dt nl : String) (h : dt ∈ intTypes) :
    mapDbColumnTypeToGoType dt nl
      = (if nl = "YES" then "sql.NullInt64" else "int", false) := by
  fin_cases h <;> (unfold mapDbColumnTypeToGoType; rw [if_pos (by decide)])

lemma map_float_family (dt nl : String) (h : dt ∈ floatTypes) :
    mapDbColumnTypeToGoType dt nl
      = (if nl = "YES" then "sql.NullFloat64" else "float64", false) := by
  fin_cases h <;>
    (unfold mapDbColumnTypeToGoType; rw [if_neg (by decide), if_pos (by decide)])

lemma map_text_family (dt nl : String) (h : dt ∈ textTypes) :
    mapDbColumnTypeToGoType dt nl
      = (if nl = "YES" then "sql.NullString" else "string", false) := by
  fin_cases h <;>
    (unfold mapDbColumnTypeToGoType;
     rw [if_neg (by decide), if_neg (by decide), if_pos (by decide)])

lemma map_time_family (dt nl : String) (h : dt ∈ timeTypes) :
    mapDbColumnTypeToGoType dt nl
      = (if nl = "YES" then "pq.NullTime" else "time.Time", true) := by
  fin_cases h <;>
    (unfold mapDbColumnTypeToGoType;
     rw [if_neg (by decide), if_neg (by decide), if_neg (by decide),
         if_pos (by decide)])

lemma map_bool_family (dt nl : String) (h : dt ∈ boolTypes) :
    mapDbColumnTypeToGoType dt nl
      = (if nl = "YES" then "sql.NullBool" else "bool", false) := by
  fin_cases h
  unfold mapDbColumnTypeToGoType
  rw [if_neg (by decide), if_neg (by decide), if_neg (by decide),
      if_neg (by decide), if_pos (by decide)]

lemma map_unknown (dt nl : String) (h : dt ∉ recognizedTypes) :
    mapDbColumnTypeToGoType dt nl = ("sql.NullString", false) := by
  simp only [recognizedTypes, List.mem_append, not_or] at h
  obtain ⟨⟨⟨⟨h1, h2⟩, h3⟩, h4⟩, h5⟩ := h
  unfold mapDbColumnTypeToGoType
  rw [if_neg h1, if_neg h2, if_neg h3, if_neg h4, if_neg h5]

/-- C1: the type mapper realizes exactly the tabulated mapping — each
recognized family yields its plain type or its nullable wrapper when the
nullability indicator is "YES" (pq.NullTime for the temporal family),
the is-temporal flag is true exactly on the temporal family, and every
unrecognized type string falls back to sql.NullString with is-temporal
false. -/
theorem claim_C1 (dt nl : String) :
    (dt ∈ intTypes →
      mapDbColumnTypeToGoType dt nl
        = (if nl = "YES" then "sql.NullInt64" else "int", false))
  ∧ (dt ∈ floatTypes →
      mapDbColumnTypeToGoType dt nl
        = (if nl = "YES" then "sql.NullFloat64" else "float64", false))
  ∧ (dt ∈ textTypes →
      mapDbColumnTypeToGoType dt nl
        = (if nl = "YES" then "sql.NullString" else "string", false))
  ∧ (dt ∈ timeTypes →
      mapDbColumnTypeToGoType dt nl
        = (if nl = "YES" then "pq.NullTime" else "time.Time", true))
  ∧ (dt ∈ boolTypes →
      mapDbColumnTypeToGoType dt nl
        = (if nl = "YES" then "sql.NullBool" else "bool", false))
  ∧ ((mapDbColumnTypeToGoType dt nl).2 = true ↔ dt ∈ timeTypes)
  ∧ (dt ∉ recognizedTypes →
      mapDbColumnTypeToGoType dt nl = ("sql.NullString", false)) := by
  refine ⟨map_int_family dt nl, map_float_family dt nl, map_text_family dt nl,
    map_time_family dt nl, map_bool_family dt nl, ?_, map_unknown dt nl⟩
  by_cases ht : dt ∈ timeTypes
  · rw [map_time_family dt nl ht]
    simpa using ht
  by_cases h1 : dt ∈ intTypes
  · rw [map_int_family dt nl h1]
    simpa using ht
  by_cases h2 : dt ∈ floatTypes
  · rw [map_float_family dt nl h2]
    simpa using ht
  by_cases h3 : dt ∈ textTypes
  · rw [map_text_family dt nl h3]
    simpa using ht
  by_cases h5 : dt ∈ boolTypes
  · rw [map_bool_family dt nl h5]
    simpa using ht
  · have hnr : dt ∉ recognizedTypes := by
      simp only [recognizedTypes, List.mem_append, not_or]
      exact ⟨⟨⟨⟨h1, h2⟩, h3⟩, ht⟩, h5⟩
    rw [map_unknown dt nl hnr]
    simpa using ht

/-- Closed instance of C1 at concrete inputs. -/
theorem claim_C1_witness :
    mapDbColumnTypeToGoType "integer" "YES" = ("sql.NullInt64", false)
  ∧ mapDbColumnTypeToGoType "timestamp" "NO" = ("time.Time", true)
  ∧ mapDbColumnTypeToGoType "uuid" "NO" = ("sql.NullString", false) := by
  refine ⟨?_, ?_, ?_⟩
  · have h := (claim_C1 "integer" "YES").1 (by decide)
    simpa using h
  · have h := (claim_C1 "timestamp" "NO").2.2.2.1 (by decide)
    simpa using h
  · exact (claim_C1 "uuid" "NO").2.2.2.2.2.2 (by decide)

/-- C10 as stated is false: the fallback for an unrecognized data type
is the nullable wrapper sql.NullString even for a non-nullable column,
so the mapper selects a nullable wrapper although IsNullable is "NO". -/
theorem claim_C10_counterexample :
    (mapDbColumnTypeToGoType "uuid" "NO").1 ∈ nullableWrapperTypes
  ∧ "uuid" ∉ recognizedTypes
  ∧ ("NO" : String) ≠ "YES" := by
  refine ⟨?_, by decide, by decide⟩
  rw [map_unknown "uuid" "NO" (by decide)]
  decide

/-- C10 (amended): for recognized data types the mapper yields a
nullable wrapper type iff IsNullable is exactly "YES"; unrecognized
types always yield sql.NullString; and the emitter's nullable flag is
set iff some column's IsNullable is exactly "YES" (so "NO", "yes",
empty or garbage count as non-nullable). -/
theorem claim_C10_amended (dt nl : String) :
    (dt ∈ recognizedTypes →
      ((mapDbColumnTypeToGoType dt nl).1 ∈ nullableWrapperTypes ↔ nl = "YES"))
  ∧ (dt ∉ recognizedTypes →
      mapDbColumnTypeToGoType dt nl = ("sql.NullString", false))
  ∧ (∀ t : Table, isNullableOf t = true ↔ ∃ c ∈ t.Columns, c.IsNullable = "YES") := by
  refine ⟨?_, map_unknown dt nl, ?_⟩
  · intro h
    simp only [recognizedTypes, List.mem_append] at h
    rcases h with ((((h | h) | h) | h) | h)
    · rw [map_int_family dt nl h]
      by_cases hnl : nl = "YES" <;> simp [hnl, nullableWrapperTypes]
    · rw [map_float_family dt nl h]
      by_cases hnl : nl = "YES" <;> simp [hnl, nullableWrapperTypes]
    · rw [map_text_family dt nl h]
      by_cases hnl : nl = "YES" <;> simp [hnl, nullableWrapperTypes]
    · rw [map_time_family dt nl h]
      by_cases hnl : nl = "YES" <;> simp [hnl, nullableWrapperTypes]
    · rw [map_bool_family dt nl h]
      by_cases hnl : nl = "YES" <;> simp [hnl, nullableWrapperTypes]
  · intro t
    simp [isNullableOf, List.any_eq_true]

/-- Closed instance of the amended C10 at concrete inputs. -/
theorem claim_C10_amended_witness :
    ((mapDbColumnTypeToGoType "integer" "NO").1 ∈ nullableWrapperTypes
      ↔ ("NO" : String) = "YES")
  ∧ mapDbColumnTypeToGoType "uuid" "NO" = ("sql.NullString", false) :=
  ⟨(claim_C10_amended "integer" "NO").1 (by decide),
   (claim_C10_amended "uuid" "NO").2.1 (by decide)⟩

/-- A snake_case identifier character: ASCII digit, lower- or upper-case
ASCII letter, or underscore — the character set of the identifiers this
tool reads from information_schema. -/
def IsIdentChar (c : Char) : Prop :=
  (48 ≤ c.toNat ∧ c.toNat ≤ 57) ∨ (97 ≤ c.toNat ∧ c.toNat ≤ 122)
  ∨ (65 ≤ c.toNat ∧ c.toNat ≤ 90) ∨ c = '_'

instance (c : Char) : Decidable (IsIdentChar c) := by
  unfold IsIdentChar; infer_instance

lemma charLe_iff {a c : Char} : a ≤ c ↔ a.toNat ≤ c.toNat :=
  ⟨fun h => h, fun h => h⟩

lemma isSeparator_of_ident {c : Char} (h : IsIdentChar c) :
    isSeparator c = false := by
  unfold isSeparator
  rcases h with ⟨h1, h2⟩ | ⟨h1, h2⟩ | ⟨h1, h2⟩ | rfl
  · rw [if_pos (show c.toNat ≤ 0x7F by omega),
        if_pos ⟨charLe_iff.mpr (show Char.toNat '0' ≤ c.toNat from h1),
                charLe_iff.mpr (show c.toNat ≤ Char.toNat '9' from h2)⟩]
  · rw [if_pos (show c.toNat ≤ 0x7F by omega),
        if_neg (fun hh : '0' ≤ c ∧ c ≤ '9' =>
          absurd (show c.toNat ≤ 57 from charLe_iff.mp hh.2) (by omega)),
        if_pos ⟨charLe_iff.mpr (show Char.toNat 'a' ≤ c.toNat from h1),
                charLe_iff.mpr (show c.toNat ≤ Char.toNat 'z' from h2)⟩]
  · rw [if_pos (show c.toNat ≤ 0x7F by omega),
        if_neg (fun hh : '0' ≤ c ∧ c ≤ '9' =>
          absurd (show c.toNat ≤ 57 from charLe_iff.mp hh.2) (by omega)),
        if_neg (fun hh : 'a' ≤ c ∧ c ≤ 'z' =>
          absurd (show (97 : Nat) ≤ c.toNat from charLe_iff.mp hh.1) (by omega)),
        if_pos ⟨charLe_iff.mpr (show Char.toNat 'A' ≤ c.toNat from h1),
                charLe_iff.mpr (show c.toNat ≤ Char.toNat 'Z' from h2)⟩]
  · decide

lemma toNat_ofNat_valid {n : Nat} (hv : n.isValidChar) :
    (Char.ofNat n).toNat = n := by
  unfold Char.ofNat
  rw [dif_pos hv]
  rfl

lemma toTitleChar_of_lower {c : Char} (h1 : 97 ≤ c.toNat)
    (h2 : c.toNat ≤ 122) : (toTitleChar c).toNat = c.toNat - 32 := by
  unfold toTitleChar
  rw [if_pos ⟨charLe_iff.mpr (show Char.toNat 'a' ≤ c.toNat from h1),
              charLe_iff.mpr (show c.toNat ≤ Char.toNat 'z' from h2)⟩]
  exact toNat_ofNat_valid (Or.inl (by omega))

lemma toTitleChar_eq_self {c : Char} (h : ¬(97 ≤ c.toNat ∧ c.toNat ≤ 122)) :
    toTitleChar c = c := by
  unfold toTitleChar
  rw [if_neg (fun hh : 'a' ≤ c ∧ c ≤ 'z' =>
    h ⟨show (97 : Nat) ≤ c.toNat from charLe_iff.mp hh.1,
       show c.toNat ≤ (122 : Nat) from charLe_iff.mp hh.2⟩)]

lemma toTitleChar_ident {c : Char} (h : IsIdentChar c) :
    IsIdentChar (toTitleChar c) := by
  by_cases hl : 97 ≤ c.toNat ∧ c.toNat ≤ 122
  · have hx := toTitleChar_of_lower hl.1 hl.2
    exact Or.inr (Or.inr (Or.inl (by omega)))
  · rw [toTitleChar_eq_self hl]; exact h

lemma toTitleChar_ne_underscore {c : Char} (h : c ≠ '_') :
    toTitleChar c ≠ '_' := by
  by_cases hl : 97 ≤ c.toNat ∧ c.toNat ≤ 122
  · intro heq
    have hn := congrArg Char.toNat heq
    rw [toTitleChar_of_lower hl.1 hl.2] at hn
    have h95 : Char.toNat '_' = 95 := rfl
    rw [h95] at hn
    omega
  · rw [toTitleChar_eq_self hl]; exact h

lemma toTitleChar_idem (c : Char) :
    toTitleChar (toTitleChar c) = toTitleChar c := by
  by_cases hl : 97 ≤ c.toNat ∧ c.toNat ≤ 122
  · have hx := toTitleChar_of_lower hl.1 hl.2
    exact toTitleChar_eq_self (by omega)
  · rw [toTitleChar_eq_self hl, toTitleChar_eq_self hl]

lemma toLowerChar_of_upper {c : Char} (h1 : 65 ≤ c.toNat)
    (h2 : c.toNat ≤ 90) : (toLowerChar c).toNat = c.toNat + 32 := by
  unfold toLowerChar
  rw [if_pos ⟨charLe_iff.mpr (show Char.toNat 'A' ≤ c.toNat from h1),
              charLe_iff.mpr (show c.toNat ≤ Char.toNat 'Z' from h2)⟩]
  exact toNat_ofNat_valid (Or.inl (by omega))

lemma toLowerChar_eq_self {c : Char} (h : ¬(65 ≤ c.toNat ∧ c.toNat ≤ 90)) :
    toLowerChar c = c := by
  unfold toLowerChar
  rw [if_neg (fun hh : 'A' ≤ c ∧ c ≤ 'Z' =>
    h ⟨show (65 : Nat) ≤ c.toNat from charLe_iff.mp hh.1,
       show c.toNat ≤ (90 : Nat) from charLe_iff.mp hh.2⟩)]

lemma toLowerChar_ident {c : Char} (h : IsIdentChar c) :
    IsIdentChar (toLowerChar c) := by
  by_cases hu : 65 ≤ c.toNat ∧ c.toNat ≤ 90
  · have hx := toLowerChar_of_upper hu.1 hu.2
    exact Or.inr (Or.inl (by omega))
  · rw [toLowerChar_eq_self hu]; exact h

lemma toLowerChar_ne_underscore {c : Char} (h : c ≠ '_') :
    toLowerChar c ≠ '_' := by
  by_cases hu : 65 ≤ c.toNat ∧ c.toNat ≤ 90
  · intro heq
    have hn := congrArg Char.toNat heq
    rw [toLowerChar_of_upper hu.1 hu.2] at hn
    have h95 : Char.toNat '_' = 95 := rfl
    rw [h95] at hn
    omega
  · rw [toLowerChar_eq_self hu]; exact h

lemma char_eq_of_toNat_eq {a b : Char} (h : a.toNat = b.toNat) : a = b := by
  rw [← Char.ofNat_toNat a, ← Char.ofNat_toNat b, h]

lemma toLower_toTitle (c : Char) :
    toLowerChar (toTitleChar c) = toLowerChar c := by
  by_cases hl : 97 ≤ c.toNat ∧ c.toNat ≤ 122
  · have hx := toTitleChar_of_lower hl.1 hl.2
    have hup := toLowerChar_of_upper (c := toTitleChar c)
      (by omega) (by omega)
    rw [toLowerChar_eq_self (c := c) (by omega)]
    apply char_eq_of_toNat_eq
    rw [hup, hx]
    omega
  · rw [toTitleChar_eq_self hl]

lemma stringsTitleAux_no_sep {l : List Char}
    (h : ∀ c ∈ l, isSeparator c = false) :
    ∀ prev, isSeparator prev = false → stringsTitleAux prev l = l := by
  induction l with
  | nil => intro prev _; rfl
  | cons c cs ih =>
      intro prev hp
      have hc : isSeparator c = false := h c (List.mem_cons_self c cs)
      have ih2 := ih (fun d hd => h d (List.mem_cons_of_mem c hd)) c hc
      simp [stringsTitleAux, hp, ih2]

/-- Capitalize only the first character of a list (the effect of
strings.Title on an underscore/alphanumeric identifier). -/
def capFirstL : List Char → List Char
  | [] => []
  | c :: cs => toTitleChar c :: cs

lemma stringsTitleAux_ident {l : List Char} (h : ∀ c ∈ l, IsIdentChar c) :
    stringsTitleAux ' ' l = capFirstL l := by
  cases l with
  | nil => rfl
  | cons c cs =>
      have hc : isSeparator c = false :=
        isSeparator_of_ident (h c (List.mem_cons_self c cs))
      have hcs : ∀ d ∈ cs, isSeparator d = false :=
        fun d hd => isSeparator_of_ident (h d (List.mem_cons_of_mem c hd))
      simp only [stringsTitleAux, capFirstL]
      rw [if_pos (show isSeparator ' ' = true by decide),
          stringsTitleAux_no_sep hcs c hc]

lemma ident_capFirstL {l : List Char} (h : ∀ c ∈ l, IsIdentChar c) :
    ∀ c ∈ capFirstL l, IsIdentChar c := by
  cases l with
  | nil => simp [capFirstL]
  | cons c cs =>
      intro d hd
      rcases List.mem_cons.mp hd with rfl | hd
      · exact toTitleChar_ident (h c (List.mem_cons_self c cs))
      · exact h d (List.mem_cons_of_mem c hd)

lemma capFirstL_idem (l : List Char) :
    capFirstL (capFirstL l) = capFirstL l := by
  cases l with
  | nil => rfl
  | cons c cs => simp [capFirstL, toTitleChar_idem]

lemma count_underscore_capFirstL (l : List Char) :
    (capFirstL l).count '_' = l.count '_' := by
  cases l with
  | nil => rfl
  | cons c cs =>
      by_cases hc : c = '_'
      · subst hc; rfl
      · have hne := toTitleChar_ne_underscore hc
        simp [capFirstL, List.count_cons, hc, hne]

lemma splitOnUnderscore_ne_nil (l : List Char) : splitOnUnderscore l ≠ [] := by
  cases l with
  | nil => simp [splitOnUnderscore]
  | cons c cs =>
      simp only [splitOnUnderscore]
      rcases hs : splitOnUnderscore cs with _ | ⟨p, ps⟩
      · simp
      · by_cases hc : c = '_' <;> simp [hc]

lemma length_splitOnUnderscore (l : List Char) :
    (splitOnUnderscore l).length = l.count '_' + 1 := by
  induction l with
  | nil => rfl
  | cons c cs ih =>
      simp only [splitOnUnderscore]
      rcases hs : splitOnUnderscore cs with _ | ⟨p, ps⟩
      · exact absurd hs (splitOnUnderscore_ne_nil cs)
      · rw [hs] at ih
        dsimp only
        by_cases hc : c = '_'
        · subst hc
          rw [if_pos rfl]
          simp only [List.length_cons] at ih ⊢
          rw [List.count_cons_self]
          omega
        · rw [if_neg hc]
          simp only [List.length_cons] at ih ⊢
          rw [List.count_cons_of_ne (fun hh => hc hh.symm)]
          omega

lemma mem_of_mem_splitOnUnderscore {l p : List Char}
    (hp : p ∈ splitOnUnderscore l) : ∀ c ∈ p, c ∈ l ∧ c ≠ '_' := by
  induction l generalizing p with
  | nil =>
      simp only [splitOnUnderscore, List.mem_singleton] at hp
      subst hp
      intro c hc
      exact absurd hc (List.not_mem_nil c)
  | cons c cs ih =>
      simp only [splitOnUnderscore] at hp
      rcases hs : splitOnUnderscore cs with _ | ⟨q, qs⟩
      · exact absurd hs (splitOnUnderscore_ne_nil cs)
      · rw [hs] at hp
        dsimp only at hp
        by_cases hc : c = '_'
        · subst hc
          rw [if_pos rfl] at hp
          rcases List.mem_cons.mp hp with rfl | hp
          · intro d hd
            exact absurd hd (List.not_mem_nil d)
          · intro d hd
            have := ih (by rw [hs]; exact hp) d hd
            exact ⟨List.mem_cons_of_mem _ this.1, this.2⟩
        · rw [if_neg hc] at hp
          rcases List.mem_cons.mp hp with rfl | hp
          · intro d hd
            rcases List.mem_cons.mp hd with rfl | hd
            · exact ⟨List.mem_cons_self _ _, hc⟩
            · have := ih (by rw [hs]; exact List.mem_cons_self q qs) d hd
              exact ⟨List.mem_cons_of_mem _ this.1, this.2⟩
          · intro d hd
            have := ih (by rw [hs]; exact List.mem_cons_of_mem q hp) d hd
            exact ⟨List.mem_cons_of_mem _ this.1, this.2⟩

lemma map_toLower_split_capFirstL {l : List Char}
    (h : ∀ c ∈ l, IsIdentChar c) :
    (splitOnUnderscore (capFirstL l)).map toLowerL
      = (splitOnUnderscore l).map toLowerL := by
  cases l with
  | nil => rfl
  | cons c cs =>
      by_cases hc : c = '_'
      · subst hc; rfl
      · have hne := toTitleChar_ne_underscore hc
        simp only [capFirstL, splitOnUnderscore]
        rcases hs : splitOnUnderscore cs with _ | ⟨p, ps⟩
        · exact absurd hs (splitOnUnderscore_ne_nil cs)
        · dsimp only
          rw [if_neg hne, if_neg hc]
          simp only [List.map_cons]
          congr 1
          simp only [toLowerL, List.map_cons, toLower_toTitle]

lemma formatColumnName_c (s : String) :
    formatColumnName "c" s = ⟨camelCaseL (stringsTitleAux ' ' s.data)⟩ := rfl

lemma formatColumnName_o (s : String) :
    formatColumnName "o" s = ⟨stringsTitleAux ' ' s.data⟩ := rfl

/-- Stated from the spec's words for "title" mode (for comparison with
the code): capitalize only the first letter of the whole identifier,
preserving internal underscores and case. -/
def specTitleFirstOnly (s : String) : String := ⟨capFirstL s.data⟩

/-- Stated from the spec's words for "camel" mode (for comparison with
the code): split on underscore, lower-case each segment and capitalize
its first letter, and concatenate the segments. -/
def specCamelSegments (s : String) : String :=
  ⟨((splitOnUnderscore s.data).map
      (fun part => capFirstL (toLowerL part))).flatten⟩

/-- C5: in "title" output mode (outputFormat "o") the formatter
capitalizes only the first letter of the identifier, preserving internal
underscores and case, and format("user_id", title) = "User_id".  The
general statement is for underscore/alphanumeric identifiers, the
character set of the mode's intended inputs. -/
theorem claim_C5 (s : String) (h : ∀ c ∈ s.data, IsIdentChar c) :
    formatColumnName "o" s = specTitleFirstOnly s
  ∧ formatColumnName "o" "user_id" = "User_id" := by
  constructor
  · rw [formatColumnName_o]
    unfold specTitleFirstOnly
    exact congrArg String.mk (stringsTitleAux_ident h)
  · decide

/-- Closed instance of C5 at the identifier of the spec's example. -/
theorem claim_C5_witness :
    formatColumnName "o" "user_id" = specTitleFirstOnly "user_id" :=
  (claim_C5 "user_id" (by decide)).1

/-- C6: in "camel" output mode (outputFormat "c") an identifier with an
underscore is split on underscores, each segment lower-cased with its
first letter capitalized, and the segments concatenated; an identifier
without an underscore degrades to the title-mode output; and
format("user_id", camel) = "UserId", format("id", camel) = "Id". -/
theorem claim_C6 (s : String) (h : ∀ c ∈ s.data, IsIdentChar c) :
    ('_' ∈ s.data → formatColumnName "c" s = specCamelSegments s)
  ∧ ('_' ∉ s.data → formatColumnName "c" s = formatColumnName "o" s)
  ∧ formatColumnName "c" "user_id" = "UserId"
  ∧ formatColumnName "c" "id" = "Id" := by
  refine ⟨?_, ?_, by decide, by decide⟩
  · intro hmem
    rw [formatColumnName_c, stringsTitleAux_ident h]
    unfold specCamelSegments camelCaseL
    apply congrArg String.mk
    have hlen : ¬((splitOnUnderscore (capFirstL s.data)).length = 1) := by
      rw [length_splitOnUnderscore, count_underscore_capFirstL]
      have hpos : 0 < s.data.count '_' := List.count_pos_iff.mpr hmem
      omega
    simp only []
    rw [if_neg hlen]
    have hmap : (splitOnUnderscore (capFirstL s.data)).map
        (fun part => stringsTitleAux ' ' (toLowerL part))
      = (splitOnUnderscore s.data).map
        (fun part => capFirstL (toLowerL part)) := by
      have h1 : (splitOnUnderscore (capFirstL s.data)).map
          (fun part => stringsTitleAux ' ' (toLowerL part))
        = ((splitOnUnderscore (capFirstL s.data)).map toLowerL).map
            (stringsTitleAux ' ') := by
        rw [List.map_map]
        rfl
      rw [h1, map_toLower_split_capFirstL h, List.map_map]
      apply List.map_congr_left
      intro p hp
      have hident : ∀ c ∈ toLowerL p, IsIdentChar c := by
        intro c hc
        simp only [toLowerL, List.mem_map] at hc
        obtain ⟨d, hd, rfl⟩ := hc
        exact toLowerChar_ident
          ((h d (mem_of_mem_splitOnUnderscore hp d hd).1))
      exact stringsTitleAux_ident hident
    rw [hmap]
  · intro hmem
    rw [formatColumnName_c, formatColumnName_o, stringsTitleAux_ident h]
    apply congrArg String.mk
    unfold camelCaseL
    have hcount : (capFirstL s.data).count '_' = 0 := by
      rw [count_underscore_capFirstL]
      exact List.count_eq_zero.mpr hmem
    have hlen : (splitOnUnderscore (capFirstL s.data)).length = 1 := by
      rw [length_splitOnUnderscore, hcount]
    simp only []
    rw [if_pos hlen, stringsTitleAux_ident (ident_capFirstL h),
        capFirstL_idem]

/-- Closed instance of C6 at the spec's two examples. -/
theorem claim_C6_witness :
    formatColumnName "c" "user_id" = specCamelSegments "user_id"
  ∧ formatColumnName "c" "id" = formatColumnName "o" "id" :=
  ⟨(claim_C6 "user_id" (by decide)).1 (by decide),
   (claim_C6 "id" (by decide)).2.1 (by decide)⟩

/-- C7: with a record-mapping annotation mode enabled, the per-column
primary-key flag holds exactly when the default text contains "nextval"
or the key text contains "PRI" and the extra text contains
"auto_increment"; a flagged column's stbl tag carries the marker tokens
PRIMARY_KEY,SERIAL,AUTO_INCREMENT after the raw column name, and every
other column's tag carries only the raw column name. -/
theorem claim_C7 (cfg : Config) (column : Column)
    (hmode : cfg.isMastermindStructable = true
      ∨ cfg.isMastermindStructableOnly = true) :
    (isPkOf column = true ↔
      (stringsContains column.ColumnDefault.Str "nextval" = true
        ∨ (stringsContains column.ColumnKey "PRI" = true
            ∧ stringsContains column.Extra "auto_increment" = true)))
  ∧ (isPkOf column = true →
      stblTagOf cfg column
        = " stbl:\"" ++ column.ColumnName
            ++ ",PRIMARY_KEY,SERIAL,AUTO_INCREMENT" ++ "\"")
  ∧ (isPkOf column = false →
      stblTagOf cfg column = " stbl:\"" ++ column.ColumnName ++ "" ++ "\"") := by
  have hflag : (cfg.isMastermindStructable
      || cfg.isMastermindStructableOnly) = true := by
    rcases hmode with h | h <;> simp [h]
  refine ⟨?_, ?_, ?_⟩
  · unfold isPkOf
    simp [Bool.or_eq_true, Bool.and_eq_true]
  · intro hpk
    unfold stblTagOf isPkMarker
    rw [if_pos hflag, if_pos hpk]
  · intro hpk
    unfold stblTagOf isPkMarker
    rw [if_pos hflag, if_neg (by simp [hpk])]

/-- Closed instance of C7: a postgres serial column and a plain column,
both with the annotation mode on. -/
theorem claim_C7_witness :
    stblTagOf cfgStOnly
        (mkCol 1 "id" "integer" ⟨"nextval(*id_seq*)", true⟩ "NO" "" "")
      = " stbl:\"" ++ "id" ++ ",PRIMARY_KEY,SERIAL,AUTO_INCREMENT" ++ "\""
  ∧ stblTagOf cfgStOnly (mkCol 2 "note" "text" ⟨"", false⟩ "YES" "" "")
      = " stbl:\"" ++ "note" ++ "" ++ "\"" :=
  ⟨(claim_C7 cfgStOnly _ (Or.inl rfl)).2.1 (by decide),
   (claim_C7 cfgStOnly _ (Or.inl rfl)).2.2 (by decide)⟩

/-- C2 fails as stated: with the structable annotation flag on (and the
recorder flag off) a table with no nullable and no temporal column still
gets an import block — an empty one — although no import is required. -/
theorem claim_C2_counterexample :
    importBlockOf cfgStOnly
        ⟨"users", [mkCol 1 "id" "integer" ⟨"", false⟩ "NO" "" ""]⟩
      = "import (\n)\n\n"
  ∧ isNullableOf ⟨"users", [mkCol 1 "id" "integer" ⟨"", false⟩ "NO" "" ""]⟩
      = false
  ∧ timeIndicatorOf ⟨"users", [mkCol 1 "id" "integer" ⟨"", false⟩ "NO" "" ""]⟩
      = 0
  ∧ cfgStOnly.isMastermindStructableRecorder = false := by
  refine ⟨by decide, by decide, by decide, rfl⟩

/-- C2 (amended): the import block is present iff some column is
nullable, some column is temporal, or one of the structable annotation
modes is enabled (in the last case the block may be empty); it contains
the nullable wrapper import "database/sql" iff some column is nullable,
the plain "time" import iff some column is temporal and none is
nullable, the "github.com/lib/pq" import iff some column is temporal
and some is nullable, and the "Masterminds/structable" import iff the
recorder flag is set together with one of the annotation modes. -/
theorem claim_C2_amended (cfg : Config) (t : Table) :
    (importBlockOf cfg t = "" ↔
      (isNullableOf t || decide (0 < timeIndicatorOf t)
        || cfg.isMastermindStructable || cfg.isMastermindStructableOnly)
        = false)
  ∧ stringsContains (importBlockOf cfg t) "database/sql" = isNullableOf t
  ∧ stringsContains (importBlockOf cfg t) "\"time\""
      = (decide (0 < timeIndicatorOf t) && !(isNullableOf t))
  ∧ stringsContains (importBlockOf cfg t) "github.com/lib/pq"
      = (decide (0 < timeIndicatorOf t) && isNullableOf t)
  ∧ stringsContains (importBlockOf cfg t) "Masterminds/structable"
      = (cfg.isMastermindStructableRecorder
          && (cfg.isMastermindStructable || cfg.isMastermindStructableOnly)) := by
  simp only [importBlockOf]
  cases h1 : isNullableOf t <;>
    cases h2 : decide (0 < timeIndicatorOf t) <;>
      cases h3 : cfg.isMastermindStructable <;>
        cases h4 : cfg.isMastermindStructableOnly <;>
          cases h5 : cfg.isMastermindStructableRecorder <;>
            exact (by decide)

/-- C8 fails as stated: with prefix "my_", suffix "_x" and camel mode on
table "user", the file is named "MyUserX.go" — the prefix and suffix are
formatted together with the table name — not "my_User_x.go" as the
unformatted-prefix/suffix reading of the claim demands. -/
theorem claim_C8_counterexample :
    fileNameOf { outputFormat := "c", pre := "my_", suf := "_x" } ⟨"user", []⟩
      = "MyUserX.go"
  ∧ Config.pre { outputFormat := "c", pre := "my_", suf := "_x" }
      ++ formatColumnName "c" "user"
      ++ Config.suf { outputFormat := "c", pre := "my_", suf := "_x" }
      ++ ".go" = "my_User_x.go"
  ∧ fileNameOf { outputFormat := "c", pre := "my_", suf := "_x" } ⟨"user", []⟩
      ≠ Config.pre { outputFormat := "c", pre := "my_", suf := "_x" }
        ++ formatColumnName "c" "user"
        ++ Config.suf { outputFormat := "c", pre := "my_", suf := "_x" }
        ++ ".go" := by
  refine ⟨by decide, by decide, by decide⟩

/-- C8 (amended): the emitted file is named with the formatter applied
to the whole concatenation prefix ++ raw table name ++ suffix, followed
by ".go", and the struct name is exactly that formatted concatenation,
so file name and struct name always agree.  The file is not written
inside the output directory: the path handed to os.Create is the
normalized output path concatenated directly with the file name, never
the output path, a separator, and the file name — since verifyOutputPath
normalizes the output path with filepath.Abs, which strips the trailing
separator, the file is created beside the output directory with the
directory's name as a prefix (e.g. "/wd/outputMyUserX.go" for output
directory "/wd/output"). -/
theorem claim_C8_amended (outputFilePath : String) (cfg : Config) (t : Table) :
    fileNameOf cfg t = structNameOf cfg t ++ ".go"
  ∧ structNameOf cfg t
      = formatColumnName cfg.outputFormat
          (cfg.pre ++ t.TableName ++ cfg.suf)
  ∧ createdPathOf outputFilePath cfg t
      ≠ outputFilePath ++ "/" ++ fileNameOf cfg t
  ∧ createdPathOf "/wd/output"
        { outputFormat := "c", pre := "my_", suf := "_x" } ⟨"user", []⟩
      = "/wd/outputMyUserX.go" := by
  refine ⟨rfl, rfl, ?_, by decide⟩
  intro hEq
  have hlen := congrArg String.length hEq
  unfold createdPathOf at hlen
  simp only [String.length_append] at hlen
  have h1 : ("/" : String).length = 1 := rfl
  rw [h1] at hlen
  omega

lemma hasSub_append_right (pat a b : List Char)
    (h : hasSubAux pat b = true) : hasSubAux pat (a ++ b) = true := by
  induction a with
  | nil => simpa using h
  | cons c cs ih =>
      rw [List.cons_append]
      show (hasPre pat (c :: (cs ++ b)) || hasSubAux pat (cs ++ b)) = true
      rw [Bool.or_eq_true]
      exact Or.inr ih

lemma stringsContains_append_right (s : String) {t pat : String}
    (h : stringsContains t pat = true) :
    stringsContains (s ++ t) pat = true := by
  unfold stringsContains at h ⊢
  rw [String.data_append]
  exact hasSub_append_right pat.data s.data t.data h

/-- C9: the connection-failure message is the same for any two non-empty
passwords (the password never reaches the message), and the message
reports only whether a password was supplied, as "using password: yes"
or "using password: no". -/
theorem claim_C9 (dbType user dbName host port p1 p2 : String)
    (h1 : p1 ≠ "") (h2 : p2 ≠ "") :
    connectionErrorMessage dbType user dbName host port p1
      = connectionErrorMessage dbType user dbName host port p2
  ∧ stringsContains (connectionErrorMessage dbType user dbName host port p1)
      "using password: yes" = true
  ∧ stringsContains (connectionErrorMessage dbType user dbName host port "")
      "using password: no" = true := by
  refine ⟨?_, ?_, ?_⟩
  · unfold connectionErrorMessage
    rw [if_neg h1, if_neg h2]
  · unfold connectionErrorMessage
    rw [if_neg h1]
    exact stringsContains_append_right _ (by decide)
  · unfold connectionErrorMessage
    rw [if_pos rfl]
    exact stringsContains_append_right _ (by decide)

/-- Closed instance of C9 at two concrete non-empty passwords. -/
theorem claim_C9_witness :
    connectionErrorMessage "pg" "postgres" "db" "localhost" "5432" "hunter2"
      = connectionErrorMessage "pg" "postgres" "db" "localhost" "5432" "swordfish"
  ∧ stringsContains
      (connectionErrorMessage "pg" "postgres" "db" "localhost" "5432" "hunter2")
      "using password: yes" = true
  ∧ stringsContains
      (connectionErrorMessage "pg" "postgres" "db" "localhost" "5432" "")
      "using password: no" = true :=
  claim_C9 "pg" "postgres" "db" "localhost" "5432" "hunter2" "swordfish"
    (by decide) (by decide)

/-- C3 is wrong about the code: createStructOfTable discards the error
of format.Source (formatedFile, _ := ...) and unconditionally writes the
returned slice, which is nil when formatting fails — so on a formatting
failure the file is written empty and the generated text is lost, not
written unformatted.  The run is indeed not aborted. -/
theorem claim_C3_bug (gofmt : String → Option String) (cfg : Config)
    (t : Table) (h : gofmt (bufferOf cfg t) = none) :
    writtenFileContents gofmt cfg t = "" ∧ bufferOf cfg t ≠ "" := by
  constructor
  · unfold writtenFileContents
    rw [h]
  · intro hEq
    have hlen := congrArg String.length hEq
    unfold bufferOf at hlen
    simp only [String.length_append] at hlen
    have h8 : ("package " : String).length = 8 := rfl
    rw [h8] at hlen
    simp at hlen

/-- Closed instance of C3 at a table whose generated struct name starts
with a digit, so that Go's format.Source fails to parse the text. -/
theorem claim_C3_bug_witness :
    writtenFileContents (fun _ => none) { outputFormat := "c" }
        ⟨"1st_table", [mkCol 1 "id" "integer" ⟨"", false⟩ "NO" "" ""]⟩ = ""
  ∧ bufferOf { outputFormat := "c" }
        ⟨"1st_table", [mkCol 1 "id" "integer" ⟨"", false⟩ "NO" "" ""]⟩ ≠ "" :=
  claim_C3_bug (fun _ => none) _ _ rfl

/-- C4 is wrong about the code: both GetColumnsOfTable implementations
discard the error of the prepared-statement Select call (the call's
result is not assigned to err), so they return nil even when the query
fails, and the table loop in run consequently continues instead of
aborting.  The dead verbose branch "if err != nil" in both methods
shows the claimed propagation was the intent. -/
theorem claim_C4_bug :
    (pgGetColumnsOfTable (Except.error "query failed") ⟨"users", []⟩).2 = none
  ∧ (mysqlGetColumnsOfTable (Except.error "query failed") ⟨"users", []⟩).2
      = none
  ∧ runStep (Except.error "query failed") ⟨"users", []⟩
      = Except.ok ⟨"users", []⟩ := ⟨rfl, rfl, rfl⟩

end TablesToGo
